import Mathlib

/-!
Verification of the `Tourist` JSON-RPC client (`src/repl/tourist.py`).

The client talks to a child process over stdio: `Tourist.__rpc` builds the
dict `msg` with keys `jsonrpc`, `method`, `params`, `id` (the id is the
literal 1), writes `json.dumps(msg) + "\n"` encoded as UTF-8 to the child's
stdin, flushes, reads a single line from the child's stdout and returns
`json.loads` of that line.  Every public method is a wrapper that resolves
an attribute on `self` and calls it with a method name and positional
argument list; `refresh_tour` resolves the misspelled `__rpi`.

Shallow embedding choices:
* JSON values are the inductive `Json` below.  JSON floats are omitted:
  the repository only ever transmits strings and integers, and floating
  point does not embed faithfully.
* `dumps` mirrors Python's `json.dumps` on that fragment: default
  separators (a comma-space between items, a colon-space after keys),
  short escapes for quote, backslash and the usual control characters and
  a four-digit hexadecimal escape for the remaining control characters.
  Escaping of characters above 0x7e (`ensure_ascii`) is not modelled; no
  property below depends on it.
* `loads` mirrors `json.loads` on the same fragment: it skips whitespace,
  parses one value, and rejects trailing garbage.  A number followed by a
  fraction or exponent part would be a float and is rejected instead of
  parsed.  The parser is total via a fuel argument large enough for any
  input of the given length.
* Strings stand for the byte payloads; `str.encode("utf-8")` is injective,
  so equalities of the transmitted strings determine the transmitted bytes.
* The child's stdout is a list of lines; `readline` at end of stream
  returns the empty string, exactly as Python's `readline` returns `b""`.
-/

set_option linter.unusedVariables false

namespace ReplClient

/-- A JSON value of the fragment the client transmits: null, booleans,
integers, strings, arrays and objects (floats omitted, see the header). -/
inductive Json where
  | null
  | bool (b : Bool)
  | int (n : Int)
  | str (s : String)
  | arr (xs : List Json)
  | obj (kvs : List (String × Json))

/-- Field access on a decoded object, Python-dict style: a later binding of
the same key wins, any non-object has no fields. -/
def Json.getField : Json → String → Option Json
  | .obj kvs, key => kvs.foldl (fun acc kv => if kv.1 = key then some kv.2 else acc) none
  | _, _ => none

/-! ### Serialization: the model of `json.dumps` -/

/-- The decimal digit character for `d < 10`. -/
def decDigit (d : Nat) : Char := Char.ofNat (48 + d)

/-- Decimal digit characters of a natural number, most significant first. -/
def natDigits (m : Nat) : List Char :=
  if m < 10 then [decDigit m]
  else natDigits (m / 10) ++ [decDigit (m % 10)]
termination_by m
decreasing_by
  simp_wf
  omega

/-- Character rendering of an integer: Python's `repr(int)`. -/
def intChars (i : Int) : List Char :=
  if i < 0 then '-' :: natDigits i.natAbs else natDigits i.toNat

/-- Lower-case hexadecimal digit character for `d < 16`. -/
def hexChar (d : Nat) : Char :=
  Char.ofNat (if d < 10 then d + 48 else d + 87)

/-- One character of a JSON string, escaped as Python's `json.dumps`
escapes it: quote, backslash and the named control characters get
two-character escapes, the remaining control characters get `\u00xx`. -/
def escapeChar (c : Char) : List Char :=
  if c = '"' then ['\\', '"']
  else if c = '\\' then ['\\', '\\']
  else if c = '\n' then ['\\', 'n']
  else if c = '\t' then ['\\', 't']
  else if c = '\r' then ['\\', 'r']
  else if c = '\x08' then ['\\', 'b']
  else if c = '\x0c' then ['\\', 'f']
  else if c.toNat < 32 then
    '\\' :: 'u' :: '0' :: '0' :: hexChar (c.toNat / 16) :: [hexChar (c.toNat % 16)]
  else [c]

/-- `escapeChar` mapped over a character list. -/
def escapeList : List Char → List Char
  | c :: more => escapeChar c ++ escapeList more
  | [] => []

/-- A serialized JSON string: opening quote, escaped body, closing quote. -/
def strChars (s : String) : List Char := '"' :: (escapeList s.data ++ ['"'])

mutual

/-- Characters of `json.dumps` of a value, with Python's default
separators: a comma and a space between items, a colon and a space after
each key. -/
def dumpsChars (j : Json) : List Char :=
  match j with
  | .null => "null".data
  | .bool true => "true".data
  | .bool false => "false".data
  | .int n => intChars n
  | .str s => strChars s
  | .arr es => '[' :: (dumpsElems es ++ [']'])
  | .obj kvs => '\x7b' :: (dumpsFields kvs ++ ['\x7d'])

/-- Array items, separated by a comma and a space. -/
def dumpsElems (items : List Json) : List Char :=
  match items with
  | [] => []
  | [e] => dumpsChars e
  | e :: es => dumpsChars e ++ ',' :: ' ' :: dumpsElems es

/-- Object members: serialized key, colon, space, value, separated by a
comma and a space. -/
def dumpsFields (members : List (String × Json)) : List Char :=
  match members with
  | [] => []
  | [(k, v)] => strChars k ++ ':' :: ' ' :: dumpsChars v
  | (k, v) :: kvs => strChars k ++ ':' :: ' ' :: dumpsChars v ++ ',' :: ' ' :: dumpsFields kvs

end

/-- The model of `json.dumps`. -/
def dumps (j : Json) : String := String.mk (dumpsChars j)

/-! ### Parsing: the model of `json.loads` -/

/-- JSON whitespace. -/
def isWsChar (c : Char) : Bool := c = ' ' || c = '\t' || c = '\n' || c = '\r'

/-- ASCII decimal digit test. -/
def isDigitChar (c : Char) : Bool := 48 ≤ c.toNat && c.toNat ≤ 57

/-- Drop leading JSON whitespace. -/
def skipWs (cs : List Char) : List Char :=
  match cs with
  | c :: rest => if isWsChar c then skipWs rest else c :: rest
  | [] => []

/-- Split off the longest leading run of decimal digits. -/
def takeDigits (cs : List Char) : List Char × List Char :=
  match cs with
  | c :: rest =>
    if isDigitChar c then
      let p := takeDigits rest
      (c :: p.1, p.2)
    else ([], c :: rest)
  | [] => ([], [])

/-- The natural number denoted by a digit run. -/
def digitsVal (ds : List Char) : Nat :=
  ds.foldl (fun a c => 10 * a + (c.toNat - 48)) 0

/-- A digit run that is an invalid JSON integer: a leading zero followed
by more digits. -/
def leadingZero : List Char → Bool
  | c :: _ :: _ => c = '0'
  | _ => false

/-- Whether the remaining input would extend the number token into a
float: a further digit, a fraction part or an exponent part. -/
def numExtends : List Char → Bool
  | [] => false
  | c :: _ => isDigitChar c || c = '.' || c = 'e' || c = 'E'

/-- Parse an integer token: optional minus sign, then a maximal digit run
with no invalid leading zero.  A following fraction or exponent part means
the token is a float, which this model does not support, so it rejects. -/
def parseIntToken (cs : List Char) : Option (Json × List Char) :=
  match cs with
  | '-' :: cs1 =>
    let p := takeDigits cs1
    if p.1 = [] then none
    else if leadingZero p.1 then none
    else if numExtends p.2 then none
    else some (.int (-(digitsVal p.1 : Int)), p.2)
  | _ =>
    let p := takeDigits cs
    if p.1 = [] then none
    else if leadingZero p.1 then none
    else if numExtends p.2 then none
    else some (.int (digitsVal p.1), p.2)

/-- Hexadecimal digit value, both letter cases accepted. -/
def hexVal (c : Char) : Option Nat :=
  if 48 ≤ c.toNat ∧ c.toNat ≤ 57 then some (c.toNat - 48)
  else if 97 ≤ c.toNat ∧ c.toNat ≤ 102 then some (c.toNat - 87)
  else if 65 ≤ c.toNat ∧ c.toNat ≤ 70 then some (c.toNat - 55)
  else none

/-- The character a two-character escape denotes, if the second character
is a legal escape name. -/
def shortEscape (e : Char) : Option Char :=
  if e = '"' then some '"'
  else if e = '\\' then some '\\'
  else if e = '/' then some '/'
  else if e = 'n' then some '\n'
  else if e = 't' then some '\t'
  else if e = 'r' then some '\r'
  else if e = 'b' then some '\x08'
  else if e = 'f' then some '\x0c'
  else none

/-- Parse a JSON string body after the opening quote, up to and including
the closing quote; returns the decoded characters and the remainder.
Unescaped control characters are rejected, as `json.loads` rejects them
in its default strict mode. -/
def parseStrBody : List Char → Option (List Char × List Char)
  | [] => none
  | c :: cs =>
    if c = '"' then some ([], cs)
    else if c = '\\' then
      match cs with
      | 'u' :: h1 :: h2 :: h3 :: h4 :: cs2 =>
        match hexVal h1, hexVal h2, hexVal h3, hexVal h4 with
        | some a, some b, some c3, some d =>
          match parseStrBody cs2 with
          | some (s, r) => some (Char.ofNat (((a * 16 + b) * 16 + c3) * 16 + d) :: s, r)
          | none => none
        | _, _, _, _ => none
      | e :: cs2 =>
        match shortEscape e with
        | some ec =>
          match parseStrBody cs2 with
          | some (s, r) => some (ec :: s, r)
          | none => none
        | none => none
      | [] => none
    else if c.toNat < 32 then none
    else
      match parseStrBody cs with
      | some (s, r) => some (c :: s, r)
      | none => none

mutual

/-- Parse one JSON value after skipping leading whitespace.  The fuel
argument only guarantees totality; `loads` passes enough for any input. -/
def parseValue : Nat → List Char → Option (Json × List Char)
  | 0, _ => none
  | fl + 1, cs =>
    match skipWs cs with
    | [] => none
    | c :: r =>
      if c = 'n' then
        match r with
        | 'u' :: 'l' :: 'l' :: tail => some (.null, tail)
        | _ => none
      else if c = 't' then
        match r with
        | 'r' :: 'u' :: 'e' :: tail => some (.bool true, tail)
        | _ => none
      else if c = 'f' then
        match r with
        | 'a' :: 'l' :: 's' :: 'e' :: tail => some (.bool false, tail)
        | _ => none
      else if c = '"' then
        match parseStrBody r with
        | some (body, tail) => some (.str (String.mk body), tail)
        | none => none
      else if c = '[' then
        match skipWs r with
        | ']' :: tail => some (.arr [], tail)
        | inner =>
          match parseElems fl inner with
          | some (items, tail) => some (.arr items, tail)
          | none => none
      else if c = '\x7b' then
        match skipWs r with
        | c2 :: inner =>
          if c2 = '\x7d' then some (.obj [], inner)
          else
            match parseFields fl (c2 :: inner) with
            | some (members, tail) => some (.obj members, tail)
            | none => none
        | [] => none
      else if c = '-' || isDigitChar c then parseIntToken (c :: r)
      else none

/-- Parse one or more comma-separated array items up to and including the
closing bracket. -/
def parseElems : Nat → List Char → Option (List Json × List Char)
  | 0, _ => none
  | fl + 1, cs =>
    match parseValue fl cs with
    | none => none
    | some (el, rem) =>
      match skipWs rem with
      | ',' :: more =>
        match parseElems fl more with
        | some (els, tail) => some (el :: els, tail)
        | none => none
      | ']' :: tail => some ([el], tail)
      | other => none

/-- Parse one or more comma-separated object members up to and including
the closing brace. -/
def parseFields : Nat → List Char → Option (List (String × Json) × List Char)
  | 0, _ => none
  | fl + 1, cs =>
    match skipWs cs with
    | '"' :: afterQuote =>
      match parseStrBody afterQuote with
      | none => none
      | some (key, afterKey) =>
        match skipWs afterKey with
        | ':' :: afterColon =>
          match parseValue fl afterColon with
          | none => none
          | some (value, afterVal) =>
            match skipWs afterVal with
            | ',' :: more =>
              match parseFields fl more with
              | some (entries, tail) => some ((String.mk key, value) :: entries, tail)
              | none => none
            | stop :: tail => if stop = '\x7d' then some ([(String.mk key, value)], tail) else none
            | [] => none
        | other => none
    | other => none

end

/-- A Python exception the client can raise: a `json.JSONDecodeError`
from `json.loads`, or an `AttributeError` from a failed attribute lookup. -/
inductive PyError where
  | jsonDecodeError (errMsg : String)
  | attributeError (attrName : String)
deriving DecidableEq

/-- The model of `json.loads`: parse one document, allowing surrounding
whitespace and nothing else.  The fuel bound suffices for any input. -/
def loads (s : String) : Except PyError Json :=
  match parseValue (2 * s.data.length + 2) s.data with
  | none => .error (.jsonDecodeError "Expecting value")
  | some (j, r) =>
    if skipWs r = [] then .ok j else .error (.jsonDecodeError "Extra data")

/-! ### The client: class `Tourist` -/

/-- One observable operation on the child process's standard streams. -/
inductive IOOp where
  | write (data : String)
  | flush
  | readLine
deriving DecidableEq

namespace Tourist

/-- The dict literal `msg` built by `Tourist.__rpc`: protocol version
`"2.0"`, the method name, the positional params, and the constant id 1,
in the source's key order. -/
def msg (method : String) (args : List Json) : Json :=
  .obj [("jsonrpc", .str "2.0"), ("method", .str method),
        ("params", .arr args), ("id", .int 1)]

/-- `self.proc.stdout.readline()`: the next line of the child's stdout,
or empty bytes once the child has closed its output. -/
def readline (stdout : List String) : String :=
  match stdout with
  | [] => ""
  | l :: _ => l

/-- `Tourist.__rpc` (name-mangled `_Tourist__rpc`): serialize `msg`,
append a newline, write and flush, then read one line of the child's
stdout and return `json.loads` of it.  The first component records the
stream operations in order; the second is the returned value or the
uncaught exception. -/
def rpc (method : String) (args : List Json) (stdout : List String) :
    List IOOp × Except PyError Json :=
  ([.write (dumps (msg method args) ++ "\n"), .flush, .readLine],
   loads (readline stdout))

/-- Attribute lookup on a `Tourist` instance: the class body defines
exactly one private method, `__rpc`, stored under its name-mangled key
`_Tourist__rpc`. -/
def getattr (attrName : String) :
    Option (String → List Json → List String → List IOOp × Except PyError Json) :=
  if attrName = "_Tourist__rpc" then some rpc else none

/-- `self.<attr>(method, args)` as each wrapper executes it: resolve the
attribute, then call it; a failed lookup raises `AttributeError` before
any request is sent. -/
def callAttr (attrName method : String) (args : List Json) (stdout : List String) :
    List IOOp × Except PyError Json :=
  match getattr attrName with
  | some f => f method args stdout
  | none => ([], .error (.attributeError attrName))

def list_tours (stdout : List String) : List IOOp × Except PyError Json :=
  callAttr "_Tourist__rpc" "list_tours" [] stdout

def create_tour (title : Json) (stdout : List String) : List IOOp × Except PyError Json :=
  callAttr "_Tourist__rpc" "create_tour" [title] stdout

def open_tour (path edit : Json) (stdout : List String) : List IOOp × Except PyError Json :=
  callAttr "_Tourist__rpc" "open_tour" [path, edit] stdout

def set_tour_edit (tour_id edit : Json) (stdout : List String) :
    List IOOp × Except PyError Json :=
  callAttr "_Tourist__rpc" "set_tour_edit" [tour_id, edit] stdout

def view_tour (tour_id : Json) (stdout : List String) : List IOOp × Except PyError Json :=
  callAttr "_Tourist__rpc" "view_tour" [tour_id] stdout

def edit_tour_metadata (tour_id delta : Json) (stdout : List String) :
    List IOOp × Except PyError Json :=
  callAttr "_Tourist__rpc" "edit_tour_metadata" [tour_id, delta] stdout

def forget_tour (tour_id : Json) (stdout : List String) : List IOOp × Except PyError Json :=
  callAttr "_Tourist__rpc" "forget_tour" [tour_id] stdout

def create_stop (tour_id title path line : Json) (stdout : List String) :
    List IOOp × Except PyError Json :=
  callAttr "_Tourist__rpc" "create_stop" [tour_id, title, path, line] stdout

def view_stop (tour_id stop_id : Json) (stdout : List String) :
    List IOOp × Except PyError Json :=
  callAttr "_Tourist__rpc" "view_stop" [tour_id, stop_id] stdout

def edit_stop_metadata (tour_id stop_id delta : Json) (stdout : List String) :
    List IOOp × Except PyError Json :=
  callAttr "_Tourist__rpc" "edit_stop_metadata" [tour_id, stop_id, delta] stdout

def link_stop (tour_id stop_id other_tour_id other_stop_id : Json) (stdout : List String) :
    List IOOp × Except PyError Json :=
  callAttr "_Tourist__rpc" "link_stop" [tour_id, stop_id, other_tour_id, other_stop_id] stdout

/-- `locate_stop` accepts `naive` but its call passes only
`[tour_id, stop_id]`, exactly as the source line does. -/
def locate_stop (tour_id stop_id naive : Json) (stdout : List String) :
    List IOOp × Except PyError Json :=
  callAttr "_Tourist__rpc" "locate_stop" [tour_id, stop_id] stdout

def remove_stop (tour_id stop_id : Json) (stdout : List String) :
    List IOOp × Except PyError Json :=
  callAttr "_Tourist__rpc" "remove_stop" [tour_id, stop_id] stdout

/-- `refresh_tour` resolves the misspelled attribute `__rpi`
(name-mangled `_Tourist__rpi`), which the class does not define. -/
def refresh_tour (tour_id commit : Json) (stdout : List String) :
    List IOOp × Except PyError Json :=
  callAttr "_Tourist__rpi" "refresh_tour" [tour_id, commit] stdout

def save_tour (tour_id path : Json) (stdout : List String) :
    List IOOp × Except PyError Json :=
  callAttr "_Tourist__rpc" "save_tour" [tour_id, path] stdout

def save_all (stdout : List String) : List IOOp × Except PyError Json :=
  callAttr "_Tourist__rpc" "save_all" [] stdout

def delete_tour (tour_id : Json) (stdout : List String) : List IOOp × Except PyError Json :=
  callAttr "_Tourist__rpc" "delete_tour" [tour_id] stdout

def index_repository (repo_name path : Json) (stdout : List String) :
    List IOOp × Except PyError Json :=
  callAttr "_Tourist__rpc" "index_repository" [repo_name, path] stdout

end Tourist

/-- A successful JSON-RPC response object carrying `result`, as the
spec's test double writes it. -/
def mkResponse (r : Json) : Json :=
  .obj [("jsonrpc", .str "2.0"), ("id", .int 1), ("result", r)]

/-!
## Lemmas about decimal digits and the integer token
-/

theorem char_ne_toNat (c d : Char) (k : Nat) (hd : d.toNat = k) (h : c.toNat ≠ k) : c ≠ d :=
  fun e => h (by rw [e, hd])

theorem decDigit_spec (d : Nat) (h : d < 10) :
    (decDigit d).toNat = 48 + d ∧ isDigitChar (decDigit d) = true := by
  interval_cases d <;> exact ⟨by decide, by decide⟩

theorem natDigits_eq (n : Nat) :
    natDigits n
      = if n < 10 then [decDigit n] else natDigits (n / 10) ++ [decDigit (n % 10)] := by
  rw [natDigits]

theorem natDigits_all (n : Nat) : ∀ c ∈ natDigits n, isDigitChar c = true := by
  rw [natDigits_eq]
  by_cases h : n < 10
  · rw [if_pos h]
    intro c hc
    obtain rfl := List.mem_singleton.mp hc
    exact (decDigit_spec n h).2
  · rw [if_neg h]
    intro c hc
    rcases List.mem_append.mp hc with h1 | h1
    · exact natDigits_all (n / 10) c h1
    · rw [List.mem_singleton] at h1
      subst h1
      exact (decDigit_spec _ (by omega)).2
termination_by n
decreasing_by
  simp_wf
  omega

theorem natDigits_ne_nil (n : Nat) : natDigits n ≠ [] := by
  rw [natDigits_eq]
  split <;> simp

theorem digitsVal_append_one (ds : List Char) (c : Char) :
    digitsVal (ds ++ [c]) = 10 * digitsVal ds + (c.toNat - 48) := by
  simp [digitsVal, List.foldl_append]

theorem digitsVal_natDigits (n : Nat) : digitsVal (natDigits n) = n := by
  rw [natDigits_eq]
  by_cases h : n < 10
  · rw [if_pos h]
    simp [digitsVal, (decDigit_spec n h).1]
  · rw [if_neg h, digitsVal_append_one, digitsVal_natDigits (n / 10),
        (decDigit_spec (n % 10) (by omega)).1]
    omega
termination_by n
decreasing_by
  simp_wf
  omega

theorem natDigits_head_zero (n : Nat) : ∀ l : List Char, natDigits n = '0' :: l → n = 0 ∧ l = [] := by
  intro l h
  rw [natDigits_eq] at h
  by_cases h10 : n < 10
  · rw [if_pos h10] at h
    have hd : decDigit n = '0' := (List.cons.injEq _ _ _ _ ▸ h).1
    have hl : l = [] := ((List.cons.injEq _ _ _ _ ▸ h).2).symm
    refine ⟨?_, hl⟩
    interval_cases n
    · rfl
    all_goals exact absurd hd (by decide)
  · rw [if_neg h10] at h
    obtain ⟨c, t, hct⟩ : ∃ c t, natDigits (n / 10) = c :: t := by
      cases hnd : natDigits (n / 10) with
      | nil => exact absurd hnd (natDigits_ne_nil _)
      | cons c t => exact ⟨c, t, rfl⟩
    rw [hct, List.cons_append] at h
    have hc : c = '0' := (List.cons.injEq _ _ _ _ ▸ h).1
    subst hc
    obtain ⟨hz, -⟩ := natDigits_head_zero (n / 10) t hct
    omega
termination_by n
decreasing_by
  simp_wf
  omega

theorem leadingZero_natDigits (n : Nat) : leadingZero (natDigits n) = false := by
  cases h : natDigits n with
  | nil => rfl
  | cons c t =>
    cases t with
    | nil => rfl
    | cons c2 t2 =>
      by_cases hc : c = '0'
      · subst hc
        obtain ⟨-, h2⟩ := natDigits_head_zero n _ h
        exact absurd h2 (by simp)
      · simp [leadingZero, hc]

theorem numExtends_head_false (c : Char) (t : List Char) (h : numExtends (c :: t) = false) :
    c ≠ '.' ∧ c ≠ 'e' ∧ c ≠ 'E' ∧ isDigitChar c = false := by
  simp only [numExtends, Bool.or_eq_false_iff, decide_eq_false_iff_not] at h
  exact ⟨h.1.1.2, h.1.2, h.2, h.1.1.1⟩

theorem takeDigits_nonDigit (cs : List Char) (h : numExtends cs = false) :
    takeDigits cs = ([], cs) := by
  rcases cs with - | ⟨c, t⟩
  · rfl
  · have hc := (numExtends_head_false c t h).2.2.2
    simp [takeDigits, hc]

theorem takeDigits_run : ∀ ds : List Char, (∀ c ∈ ds, isDigitChar c = true) →
    ∀ rest : List Char, takeDigits rest = ([], rest) →
    takeDigits (ds ++ rest) = (ds, rest)
  | [], _, rest, hrest => by simpa using hrest
  | c :: t, hall, rest, hrest => by
    have hc : isDigitChar c = true := hall c (List.mem_cons_self ..)
    have hstep := takeDigits_run t (fun x hx => hall x (List.mem_cons_of_mem _ hx)) rest hrest
    rw [List.cons_append]
    conv_lhs => rw [takeDigits.eq_def]
    simp only [hc, if_true, hstep]

theorem digit_head_natDigits (n : Nat) :
    ∃ c t, natDigits n = c :: t ∧ isDigitChar c = true := by
  cases h : natDigits n with
  | nil => exact absurd h (natDigits_ne_nil n)
  | cons c t => exact ⟨c, t, rfl, natDigits_all n c (h ▸ List.mem_cons_self ..)⟩

theorem isDigitChar_bounds {c : Char} (h : isDigitChar c = true) :
    48 ≤ c.toNat ∧ c.toNat ≤ 57 := by
  simpa [isDigitChar] using h

theorem digit_props {c : Char} (h : isDigitChar c = true) :
    isWsChar c = false ∧ c ≠ '-' ∧ c ≠ ']' ∧ c ≠ 'n' ∧ c ≠ '\x7d' ∧ c ≠ 't'
      ∧ c ≠ ',' ∧ c ≠ 'f' ∧ c ≠ ':' ∧ c ≠ '"' ∧ c ≠ '[' ∧ c ≠ '\x7b' := by
  obtain ⟨h1, h2⟩ := isDigitChar_bounds h
  refine ⟨?_,
      char_ne_toNat c '-' 45 (by decide) (by omega),
      char_ne_toNat c ']' 93 (by decide) (by omega),
      char_ne_toNat c 'n' 110 (by decide) (by omega),
      char_ne_toNat c '\x7d' 125 (by decide) (by omega),
      char_ne_toNat c 't' 116 (by decide) (by omega),
      char_ne_toNat c ',' 44 (by decide) (by omega),
      char_ne_toNat c 'f' 102 (by decide) (by omega),
      char_ne_toNat c ':' 58 (by decide) (by omega),
      char_ne_toNat c '"' 34 (by decide) (by omega),
      char_ne_toNat c '[' 91 (by decide) (by omega),
      char_ne_toNat c '\x7b' 123 (by decide) (by omega)⟩
  simp only [isWsChar, Bool.or_eq_false_iff, decide_eq_false_iff_not]
  exact ⟨⟨⟨char_ne_toNat c ' ' 32 (by decide) (by omega),
      char_ne_toNat c '\t' 9 (by decide) (by omega)⟩,
      char_ne_toNat c '\n' 10 (by decide) (by omega)⟩,
      char_ne_toNat c '\x0d' 13 (by decide) (by omega)⟩

theorem parseIntToken_natDigits (n : Nat) (rest : List Char) (h : numExtends rest = false) :
    parseIntToken (natDigits n ++ rest) = some (.int n, rest) := by
  obtain ⟨c, t, hct, hc⟩ := digit_head_natDigits n
  have hminus : c ≠ '-' := (digit_props hc).2.1
  have htake : takeDigits (natDigits n ++ rest) = (natDigits n, rest) :=
    takeDigits_run _ (natDigits_all n) _ (takeDigits_nonDigit rest h)
  rw [hct, List.cons_append]
  unfold parseIntToken
  split
  · rename_i cs1 heq
    exact absurd ((List.cons.injEq _ _ _ _ ▸ heq).1) hminus
  · rw [← List.cons_append, ← hct, htake]
    rw [if_neg (natDigits_ne_nil n), leadingZero_natDigits, h]
    simp [digitsVal_natDigits]

theorem parseIntToken_intChars (i : Int) (rest : List Char) (h : numExtends rest = false) :
    parseIntToken (intChars i ++ rest) = some (.int i, rest) := by
  unfold intChars
  by_cases hi : i < 0
  · rw [if_pos hi, List.cons_append]
    have htake : takeDigits (natDigits i.natAbs ++ rest) = (natDigits i.natAbs, rest) :=
      takeDigits_run _ (natDigits_all _) _ (takeDigits_nonDigit rest h)
    unfold parseIntToken
    split
    · rename_i cs1 heq
      injection heq with h1 h2
      subst h2
      simp only [htake, if_neg (natDigits_ne_nil _), leadingZero_natDigits, h]
      simp only [Bool.false_eq_true, if_false, Option.some.injEq, Prod.mk.injEq,
        Json.int.injEq, digitsVal_natDigits]
      exact ⟨by omega, trivial⟩
    · rename_i hne
      exact absurd rfl (hne _)
  · rw [if_neg hi]
    rw [parseIntToken_natDigits i.toNat rest h]
    simp only [Option.some.injEq, Prod.mk.injEq, Json.int.injEq]
    exact ⟨by omega, trivial⟩

/-!
## Lemmas about string escaping
-/

theorem hexChar_hexVal (m : Nat) (h : m < 16) : hexVal (hexChar m) = some m := by
  interval_cases m <;> decide

theorem parseStrBody_escapeChar (c : Char) (rest : List Char) :
    parseStrBody (escapeChar c ++ rest)
      = Option.map (fun p => (c :: p.1, p.2)) (parseStrBody rest) := by
  by_cases h1 : c = '"'
  · subst h1
    show parseStrBody ('\\' :: '"' :: rest) = _
    rw [parseStrBody.eq_def]
    cases hp : parseStrBody rest <;> simp [shortEscape, hp]
  by_cases h2 : c = '\\'
  · subst h2
    show parseStrBody ('\\' :: '\\' :: rest) = _
    rw [parseStrBody.eq_def]
    cases hp : parseStrBody rest <;> simp [shortEscape, hp]
  by_cases h3 : c = '\n'
  · subst h3
    show parseStrBody ('\\' :: 'n' :: rest) = _
    rw [parseStrBody.eq_def]
    cases hp : parseStrBody rest <;> simp [shortEscape, hp]
  by_cases h4 : c = '\t'
  · subst h4
    show parseStrBody ('\\' :: 't' :: rest) = _
    rw [parseStrBody.eq_def]
    cases hp : parseStrBody rest <;> simp [shortEscape, hp]
  by_cases h5 : c = '\x0d'
  · subst h5
    show parseStrBody ('\\' :: 'r' :: rest) = _
    rw [parseStrBody.eq_def]
    cases hp : parseStrBody rest <;> simp [shortEscape, hp]
  by_cases h6 : c = '\x08'
  · subst h6
    show parseStrBody ('\\' :: 'b' :: rest) = _
    rw [parseStrBody.eq_def]
    cases hp : parseStrBody rest <;> simp [shortEscape, hp]
  by_cases h7 : c = '\x0c'
  · subst h7
    show parseStrBody ('\\' :: 'f' :: rest) = _
    rw [parseStrBody.eq_def]
    cases hp : parseStrBody rest <;> simp [shortEscape, hp]
  by_cases hlt : c.toNat < 32
  · have e1 : hexVal (hexChar (c.toNat / 16)) = some (c.toNat / 16) :=
      hexChar_hexVal _ (by omega)
    have e2 : hexVal (hexChar (c.toNat % 16)) = some (c.toNat % 16) :=
      hexChar_hexVal _ (by omega)
    have e0 : hexVal '0' = some 0 := by decide
    have harith : ((0 * 16 + 0) * 16 + c.toNat / 16) * 16 + c.toNat % 16 = c.toNat := by
      omega
    have harith2 : c.toNat / 16 * 16 + c.toNat % 16 = c.toNat := by omega
    simp only [escapeChar, if_neg h1, if_neg h2, if_neg h3, if_neg h4, if_neg h5,
      if_neg h6, if_neg h7, if_pos hlt, List.cons_append, List.nil_append]
    rw [parseStrBody.eq_def]
    cases hp : parseStrBody rest <;>
      simp [e0, e1, e2, harith, harith2, hp, Char.ofNat_toNat]
  · simp only [escapeChar, if_neg h1, if_neg h2, if_neg h3, if_neg h4, if_neg h5,
      if_neg h6, if_neg h7, if_neg hlt, List.cons_append, List.nil_append]
    rw [parseStrBody.eq_def]
    cases hp : parseStrBody rest <;> simp [h1, h2, hlt, hp]

theorem parseStrBody_escapeList (s : List Char) (rest : List Char) :
    parseStrBody (escapeList s ++ '"' :: rest) = some (s, rest) := by
  induction s with
  | nil =>
    show parseStrBody ('"' :: rest) = _
    rw [parseStrBody.eq_def]
    simp
  | cons c t ih =>
    rw [escapeList, List.append_assoc, parseStrBody_escapeChar, ih]
    rfl

theorem strChars_append (s : String) (rest : List Char) :
    strChars s ++ rest = '"' :: (escapeList s.data ++ '"' :: rest) := by
  simp [strChars]

/-!
## Round-trip: the parser inverts the serializer
-/

theorem skipWs_not_ws {c : Char} (h : isWsChar c = false) (cs : List Char) :
    skipWs (c :: cs) = c :: cs := by
  simp [skipWs, h]

theorem numExtends_stop {c : Char} (t : List Char) (h1 : isDigitChar c = false)
    (h2 : c ≠ '.') (h3 : c ≠ 'e') (h4 : c ≠ 'E') : numExtends (c :: t) = false := by
  simp [numExtends, h1, h2, h3, h4]

theorem numExtends_rbracket (t : List Char) : numExtends (']' :: t) = false :=
  numExtends_stop t (by decide) (by decide) (by decide) (by decide)

theorem numExtends_rbrace (t : List Char) : numExtends ('\x7d' :: t) = false :=
  numExtends_stop t (by decide) (by decide) (by decide) (by decide)

theorem numExtends_comma (t : List Char) : numExtends (',' :: t) = false :=
  numExtends_stop t (by decide) (by decide) (by decide) (by decide)

theorem intChars_head (i : Int) :
    ∃ c t, intChars i = c :: t ∧ (isDigitChar c = true ∨ c = '-') := by
  unfold intChars
  by_cases hi : i < 0
  · exact ⟨'-', natDigits i.natAbs, by rw [if_pos hi], Or.inr rfl⟩
  · obtain ⟨c, t, hct, hc⟩ := digit_head_natDigits i.toNat
    exact ⟨c, t, by rw [if_neg hi, hct], Or.inl hc⟩

theorem dumpsChars_length_pos (j : Json) : 1 ≤ (dumpsChars j).length := by
  cases j with
  | null => decide
  | bool b => cases b <;> decide
  | int i =>
    obtain ⟨c, t, hct, -⟩ := intChars_head i
    show 1 ≤ (intChars i).length
    rw [hct]
    simp
  | str s => simp [dumpsChars, strChars]
  | arr es => simp [dumpsChars]
  | obj kvs => simp [dumpsChars]

theorem parseValue_ws (f : Nat) (cs : List Char) :
    parseValue f (' ' :: cs) = parseValue f cs := by
  cases f <;> rfl

theorem parseElems_ws (f : Nat) (cs : List Char) :
    parseElems f (' ' :: cs) = parseElems f cs := by
  rcases f with - | g
  · rfl
  ·
    show (match parseValue g (' ' :: cs) with
      | none => none
      | some (el, rem) =>
        match skipWs rem with
        | ',' :: more =>
          match parseElems g more with
          | some (els, tail) => some (el :: els, tail)
          | none => none
        | ']' :: tail => some ([el], tail)
        | other => none)
      = parseElems (g + 1) cs
    rw [parseValue_ws]
    rfl

theorem parseFields_ws (f : Nat) (cs : List Char) :
    parseFields f (' ' :: cs) = parseFields f cs := by
  cases f <;> rfl

theorem parseValue_intChars (f : Nat) (i : Int) (rest : List Char)
    (hext : numExtends rest = false) :
    parseValue (f + 1) (intChars i ++ rest) = some (.int i, rest) := by
  obtain ⟨c, t, hct, hc⟩ := intChars_head i
  have hprops : c ≠ 'n' ∧ c ≠ '"' ∧ c ≠ 't' ∧ c ≠ '[' ∧ c ≠ 'f'
      ∧ c ≠ '\x7b' ∧ isWsChar c = false := by
    cases hc with
    | inl hdig =>
      obtain ⟨hws, -, -, hn, -, ht2, -, hf, -, hq, hbk, hbc⟩ := digit_props hdig
      exact ⟨hn, hq, ht2, hbk, hf, hbc, hws⟩
    | inr hm => subst hm; decide
  have hguard : (c = '-' || isDigitChar c) = true := by
    cases hc with
    | inl hdig => simp [hdig]
    | inr hm => simp [hm]
  rw [hct, List.cons_append, parseValue.eq_def]
  simp only [skipWs_not_ws hprops.2.2.2.2.2.2, if_neg hprops.1, if_neg hprops.2.2.1,
    if_neg hprops.2.2.2.2.1, if_neg hprops.2.1, if_neg hprops.2.2.2.1,
    if_neg hprops.2.2.2.2.2.1, hguard, if_pos]
  rw [← List.cons_append, ← hct, parseIntToken_intChars i rest hext]

theorem parseValue_strChars (f : Nat) (s : String) (rest : List Char) :
    parseValue (f + 1) (strChars s ++ rest) = some (.str s, rest) := by
  rw [strChars_append, parseValue.eq_def]
  simp only [skipWs_not_ws (by decide : isWsChar '"' = false)]
  simp only [if_neg (by decide : ¬('"' : Char) = 'n'), if_neg (by decide : ¬('"' : Char) = 't'),
    if_neg (by decide : ¬('"' : Char) = 'f'), if_pos (rfl : ('"' : Char) = '"')]
  rw [parseStrBody_escapeList]
  rfl

theorem parseValue_succ (f : Nat) (cs : List Char) :
    parseValue (f + 1) cs
      = match skipWs cs with
        | [] => none
        | c :: r =>
          if c = 'n' then
            match r with
            | 'u' :: 'l' :: 'l' :: tail => some (.null, tail)
            | _ => none
          else if c = 't' then
            match r with
            | 'r' :: 'u' :: 'e' :: tail => some (.bool true, tail)
            | _ => none
          else if c = 'f' then
            match r with
            | 'a' :: 'l' :: 's' :: 'e' :: tail => some (.bool false, tail)
            | _ => none
          else if c = '"' then
            match parseStrBody r with
            | some (body, tail) => some (.str (String.mk body), tail)
            | none => none
          else if c = '[' then
            match skipWs r with
            | ']' :: tail => some (.arr [], tail)
            | inner =>
              match parseElems f inner with
              | some (items, tail) => some (.arr items, tail)
              | none => none
          else if c = '\x7b' then
            match skipWs r with
            | c2 :: inner =>
              if c2 = '\x7d' then some (.obj [], inner)
              else
                match parseFields f (c2 :: inner) with
                | some (members, tail) => some (.obj members, tail)
                | none => none
            | [] => none
          else if c = '-' || isDigitChar c then parseIntToken (c :: r)
          else none := rfl

theorem parseElems_succ (f : Nat) (cs : List Char) :
    parseElems (f + 1) cs
      = match parseValue f cs with
        | none => none
        | some (el, rem) =>
          match skipWs rem with
          | ',' :: more =>
            match parseElems f more with
            | some (els, tail) => some (el :: els, tail)
            | none => none
          | ']' :: tail => some ([el], tail)
          | other => none := rfl

theorem parseFields_succ (f : Nat) (cs : List Char) :
    parseFields (f + 1) cs
      = match skipWs cs with
        | '"' :: afterQuote =>
          match parseStrBody afterQuote with
          | none => none
          | some (key, afterKey) =>
            match skipWs afterKey with
            | ':' :: afterColon =>
              match parseValue f afterColon with
              | none => none
              | some (value, afterVal) =>
                match skipWs afterVal with
                | ',' :: more =>
                  match parseFields f more with
                  | some (entries, tail) => some ((String.mk key, value) :: entries, tail)
                  | none => none
                | stop :: tail => if stop = '\x7d' then some ([(String.mk key, value)], tail) else none
                | [] => none
            | other => none
        | other => none := rfl

theorem dumpsChars_arr_shape (es : List Json) (x : List Char) :
    dumpsChars (.arr es) ++ x = '[' :: (dumpsElems es ++ ']' :: x) := by
  show ('[' :: (dumpsElems es ++ [']'])) ++ x = _
  simp

theorem dumpsChars_obj_shape (kvs : List (String × Json)) (x : List Char) :
    dumpsChars (.obj kvs) ++ x = '\x7b' :: (dumpsFields kvs ++ '\x7d' :: x) := by
  show ('\x7b' :: (dumpsFields kvs ++ ['\x7d'])) ++ x = _
  simp

theorem dumpsElems_cons_shape (e e2 : Json) (es : List Json) (x : List Char) :
    dumpsElems (e :: e2 :: es) ++ x
      = dumpsChars e ++ (',' :: (' ' :: (dumpsElems (e2 :: es) ++ x))) := by
  show (dumpsChars e ++ ',' :: ' ' :: dumpsElems (e2 :: es)) ++ x = _
  simp

theorem dumpsFields_one_shape (k : String) (v : Json) (x : List Char) :
    dumpsFields [(k, v)] ++ x
      = '"' :: (escapeList k.data ++ '"' :: (':' :: (' ' :: (dumpsChars v ++ x)))) := by
  show (strChars k ++ ':' :: ' ' :: dumpsChars v) ++ x = _
  simp [strChars]

theorem dumpsFields_cons_shape (k : String) (v : Json) (kv2 : String × Json)
    (kvs : List (String × Json)) (x : List Char) :
    dumpsFields ((k, v) :: kv2 :: kvs) ++ x
      = '"' :: (escapeList k.data ++ '"' :: (':' :: (' ' :: (dumpsChars v
          ++ ',' :: (' ' :: (dumpsFields (kv2 :: kvs) ++ x)))))) := by
  show (strChars k ++ ':' :: ' ' :: dumpsChars v ++ ',' :: ' ' :: dumpsFields (kv2 :: kvs)) ++ x = _
  simp [strChars]

theorem dumpsChars_head (j : Json) :
    ∃ c t, dumpsChars j = c :: t ∧ isWsChar c = false
      ∧ c ≠ ']' ∧ c ≠ '\x7d' ∧ c ≠ ',' ∧ c ≠ ':' := by
  cases j with
  | int i =>
    obtain ⟨c, t, hct, hc⟩ := intChars_head i
    refine ⟨c, t, hct, ?_⟩
    cases hc with
    | inl hdig =>
      obtain ⟨hws, -, hrb, -, hrc, -, hcm, -, hcl, -, -, -⟩ := digit_props hdig
      exact ⟨hws, hrb, hrc, hcm, hcl⟩
    | inr hm => subst hm; decide
  | null => exact ⟨'n', _, rfl, by decide⟩
  | bool b =>
    cases b with
    | false => exact ⟨'f', _, rfl, by decide⟩
    | true => exact ⟨'t', _, rfl, by decide⟩
  | str s => exact ⟨'"', _, rfl, by decide⟩
  | arr es => exact ⟨'[', _, rfl, by decide⟩
  | obj kvs => exact ⟨'\x7b', _, rfl, by decide⟩

theorem skipWs_dumps (j : Json) (x : List Char) :
    skipWs (dumpsChars j ++ x) = dumpsChars j ++ x := by
  obtain ⟨c, t, hct, hws, -, -, -, -⟩ := dumpsChars_head j
  rw [hct, List.cons_append, skipWs_not_ws hws]

theorem skipWs_dumpsElems (e : Json) (es : List Json) (x : List Char) :
    skipWs (dumpsElems (e :: es) ++ x) = dumpsElems (e :: es) ++ x := by
  cases es with
  | nil => exact skipWs_dumps e x
  | cons e2 es2 =>
    rw [dumpsElems_cons_shape]
    exact skipWs_dumps e _

theorem skipWs_dumpsFields (kv : String × Json) (kvs : List (String × Json)) (x : List Char) :
    skipWs (dumpsFields (kv :: kvs) ++ x) = dumpsFields (kv :: kvs) ++ x := by
  obtain ⟨k, v⟩ := kv
  cases kvs with
  | nil =>
    rw [dumpsFields_one_shape]
    rw [skipWs_not_ws (by decide)]
  | cons kv2 kvs2 =>
    rw [dumpsFields_cons_shape]
    rw [skipWs_not_ws (by decide)]

theorem strChars_length (s : String) :
    (strChars s).length = (escapeList s.data).length + 2 := by
  show ('"' :: (escapeList s.data ++ ['"'])).length = _
  simp

theorem parseRT (fuel : Nat) :
    (∀ j rest, (dumpsChars j).length < fuel → numExtends rest = false →
       parseValue fuel (dumpsChars j ++ rest) = some (j, rest))
    ∧ (∀ es rest, es ≠ [] → (dumpsElems es).length + 1 < fuel →
       parseElems fuel (dumpsElems es ++ ']' :: rest) = some (es, rest))
    ∧ (∀ kvs rest, kvs ≠ [] → (dumpsFields kvs).length + 1 < fuel →
       parseFields fuel (dumpsFields kvs ++ '\x7d' :: rest) = some (kvs, rest)) := by
  induction fuel with
  | zero =>
    exact ⟨fun j rest hlen _ => absurd hlen (by omega),
        fun es rest _ hlen => absurd hlen (by omega),
        fun kvs rest _ hlen => absurd hlen (by omega)⟩
  | succ f ih =>
    obtain ⟨ih1, ih2, ih3⟩ := ih
    refine ⟨?_, ?_, ?_⟩
    · intro j rest hlen hext
      cases j with
      | null => rfl
      | bool b =>
        cases b
        · rfl
        · rfl
      | int i => exact parseValue_intChars f i rest hext
      | str s => exact parseValue_strChars f s rest
      | arr es =>
        cases es with
        | nil => rfl
        | cons e es' =>
          have harr : (dumpsChars (Json.arr (e :: es'))).length
              = (dumpsElems (e :: es')).length + 2 := by
            show ('[' :: (dumpsElems (e :: es') ++ [']'])).length = _
            simp
          have key := ih2 (e :: es') rest (by simp) (by omega)
          rw [dumpsChars_arr_shape, parseValue_succ]
          rw [skipWs_not_ws (by decide)]
          simp only [if_neg (by decide : ¬('[' : Char) = 'n'),
            if_neg (by decide : ¬('[' : Char) = 't'),
            if_neg (by decide : ¬('[' : Char) = 'f'),
            if_neg (by decide : ¬('[' : Char) = '"')]
          simp only [if_true]
          rw [skipWs_dumpsElems]
          obtain ⟨c, t, hct, -, hbr, -, -, -⟩ := dumpsChars_head e
          have hY : ∃ T, dumpsElems (e :: es') ++ ']' :: rest = c :: T := by
            cases es' with
            | nil =>
              refine ⟨t ++ ']' :: rest, ?_⟩
              show dumpsChars e ++ ']' :: rest = _
              rw [hct, List.cons_append]
            | cons e2 es2 =>
              refine ⟨t ++ ',' :: (' ' :: (dumpsElems (e2 :: es2) ++ ']' :: rest)), ?_⟩
              rw [dumpsElems_cons_shape, hct, List.cons_append]
          obtain ⟨T, hT⟩ := hY
          split
          · rename_i r2 heq
            rw [hT] at heq
            injection heq with h1 h2
            exact absurd h1 hbr
          · rw [key]
      | obj kvs =>
        cases kvs with
        | nil => rfl
        | cons kv kvs' =>
          obtain ⟨k, v⟩ := kv
          have hobj : (dumpsChars (Json.obj ((k, v) :: kvs'))).length
              = (dumpsFields ((k, v) :: kvs')).length + 2 := by
            show ('\x7b' :: (dumpsFields ((k, v) :: kvs') ++ ['\x7d'])).length = _
            simp
          have key := ih3 ((k, v) :: kvs') rest (by simp) (by omega)
          rw [dumpsChars_obj_shape, parseValue_succ]
          rw [skipWs_not_ws (by decide)]
          simp only [if_neg (by decide : ¬('\x7b' : Char) = 'n'),
            if_neg (by decide : ¬('\x7b' : Char) = 't'),
            if_neg (by decide : ¬('\x7b' : Char) = 'f'),
            if_neg (by decide : ¬('\x7b' : Char) = '"'),
            if_neg (by decide : ¬('\x7b' : Char) = '[')]
          simp only [if_true]
          rw [skipWs_dumpsFields]
          have hY : ∃ Y, dumpsFields ((k, v) :: kvs') ++ '\x7d' :: rest = '"' :: Y := by
            cases kvs' with
            | nil => exact ⟨_, dumpsFields_one_shape k v _⟩
            | cons kv2 kvs2 => exact ⟨_, dumpsFields_cons_shape k v kv2 kvs2 _⟩
          obtain ⟨Y, hY⟩ := hY
          split
          · rename_i c2 r2 heq
            rw [hY] at heq
            injection heq with h1 h2
            subst h1
            rw [if_neg (by decide : ¬('"' : Char) = '\x7d')]
            rw [show ('"' :: r2 : List Char) = dumpsFields ((k, v) :: kvs') ++ '\x7d' :: rest from
              by rw [← h2, ← hY]]
            rw [key]
          · rename_i heq
            rw [hY] at heq
            exact absurd heq (by simp)
    · intro es rest hne hlen
      cases es with
      | nil => cases hne rfl
      | cons e es' =>
        cases es' with
        | nil =>
          have hv := ih1 e (']' :: rest)
            (by have : (dumpsElems [e]).length = (dumpsChars e).length := rfl; omega)
            (numExtends_rbracket rest)
          rw [parseElems_succ,
            show dumpsElems [e] ++ ']' :: rest = dumpsChars e ++ ']' :: rest from rfl, hv]
          rfl
        | cons e2 es2 =>
          have hlens : (dumpsElems (e :: e2 :: es2)).length
              = (dumpsChars e).length + ((dumpsElems (e2 :: es2)).length + 2) := by
            show (dumpsChars e ++ ',' :: ' ' :: dumpsElems (e2 :: es2)).length = _
            simp
          have hpos := dumpsChars_length_pos e
          have hv := ih1 e (',' :: (' ' :: (dumpsElems (e2 :: es2) ++ ']' :: rest)))
            (by omega) (numExtends_comma _)
          have hrec := ih2 (e2 :: es2) rest (by simp) (by omega)
          rw [parseElems_succ, dumpsElems_cons_shape, hv]
          show (match parseElems f (' ' :: (dumpsElems (e2 :: es2) ++ ']' :: rest)) with
            | some (els, tail) => some (e :: els, tail)
            | none => none) = some (e :: e2 :: es2, rest)
          rw [parseElems_ws, hrec]
    · intro kvs rest hne hlen
      cases kvs with
      | nil => cases hne rfl
      | cons kv kvs' =>
        obtain ⟨k, v⟩ := kv
        cases kvs' with
        | nil =>
          have hsl : (dumpsFields [(k, v)]).length
              = (strChars k).length + ((dumpsChars v).length + 2) := by
            show (strChars k ++ ':' :: ' ' :: dumpsChars v).length = _
            simp
          have hv := ih1 v ('\x7d' :: rest) (by omega) (numExtends_rbrace rest)
          rw [parseFields_succ, skipWs_dumpsFields, dumpsFields_one_shape]
          show (match parseStrBody (escapeList k.data
              ++ '"' :: (':' :: (' ' :: (dumpsChars v ++ '\x7d' :: rest)))) with
            | none => none
            | some (key2, afterKey) =>
              match skipWs afterKey with
              | ':' :: afterColon =>
                match parseValue f afterColon with
                | none => none
                | some (value2, afterVal) =>
                  match skipWs afterVal with
                  | ',' :: more =>
                    match parseFields f more with
                    | some (entries, tail) => some ((String.mk key2, value2) :: entries, tail)
                    | none => none
                  | stop :: tail => if stop = '\x7d' then some ([(String.mk key2, value2)], tail) else none
                  | [] => none
              | other => none) = some ([(k, v)], rest)
          rw [parseStrBody_escapeList]
          show (match parseValue f (' ' :: (dumpsChars v ++ '\x7d' :: rest)) with
            | none => none
            | some (value2, afterVal) =>
              match skipWs afterVal with
              | ',' :: more =>
                match parseFields f more with
                | some (entries, tail) => some ((String.mk k.data, value2) :: entries, tail)
                | none => none
              | stop :: tail => if stop = '\x7d' then some ([(String.mk k.data, value2)], tail) else none
              | [] => none) = some ([(k, v)], rest)
          rw [parseValue_ws, hv]
          rfl
        | cons kv2 kvs2 =>
          have hsl : (dumpsFields ((k, v) :: kv2 :: kvs2)).length
              = (strChars k).length + ((dumpsChars v).length
                  + ((dumpsFields (kv2 :: kvs2)).length + 4)) := by
            show (strChars k ++ ':' :: ' ' :: dumpsChars v
                ++ ',' :: ' ' :: dumpsFields (kv2 :: kvs2)).length = _
            simp
            omega
          have hv := ih1 v (',' :: (' ' :: (dumpsFields (kv2 :: kvs2) ++ '\x7d' :: rest)))
            (by omega) (numExtends_comma _)
          have hrec := ih3 (kv2 :: kvs2) rest (by simp) (by omega)
          rw [parseFields_succ, skipWs_dumpsFields, dumpsFields_cons_shape]
          show (match parseStrBody (escapeList k.data
              ++ '"' :: (':' :: (' ' :: (dumpsChars v
                ++ ',' :: (' ' :: (dumpsFields (kv2 :: kvs2) ++ '\x7d' :: rest)))))) with
            | none => none
            | some (key2, afterKey) =>
              match skipWs afterKey with
              | ':' :: afterColon =>
                match parseValue f afterColon with
                | none => none
                | some (value2, afterVal) =>
                  match skipWs afterVal with
                  | ',' :: more =>
                    match parseFields f more with
                    | some (entries, tail) => some ((String.mk key2, value2) :: entries, tail)
                    | none => none
                  | stop :: tail => if stop = '\x7d' then some ([(String.mk key2, value2)], tail) else none
                  | [] => none
              | other => none) = some ((k, v) :: kv2 :: kvs2, rest)
          rw [parseStrBody_escapeList]
          show (match parseValue f (' ' :: (dumpsChars v
              ++ ',' :: (' ' :: (dumpsFields (kv2 :: kvs2) ++ '\x7d' :: rest)))) with
            | none => none
            | some (value2, afterVal) =>
              match skipWs afterVal with
              | ',' :: more =>
                match parseFields f more with
                | some (entries, tail) => some ((String.mk k.data, value2) :: entries, tail)
                | none => none
              | stop :: tail => if stop = '\x7d' then some ([(String.mk k.data, value2)], tail) else none
              | [] => none) = some ((k, v) :: kv2 :: kvs2, rest)
          rw [parseValue_ws, hv]
          show (match parseFields f (' ' :: (dumpsFields (kv2 :: kvs2) ++ '\x7d' :: rest)) with
            | some (entries, tail) => some ((String.mk k.data, v) :: entries, tail)
            | none => none) = some ((k, v) :: kv2 :: kvs2, rest)
          rw [parseFields_ws, hrec]

/-- The parser inverts the serializer: `json.loads` of `json.dumps` of any
value of the fragment gives the value back. -/
theorem loads_dumps (j : Json) : loads (dumps j) = Except.ok j := by
  have h := (parseRT (2 * (dumpsChars j).length + 2)).1 j [] (by omega) rfl
  rw [List.append_nil] at h
  unfold loads
  rw [show (dumps j).data = dumpsChars j from rfl, h]
  rfl

/-!
## The serialized form of a value contains no newline
-/

theorem newline_not_mem_natDigits (n : Nat) : '\n' ∉ natDigits n := by
  intro hmem
  exact absurd (natDigits_all n _ hmem) (by decide)

theorem newline_not_mem_intChars (i : Int) : '\n' ∉ intChars i := by
  unfold intChars
  split
  · intro hmem
    rcases List.mem_cons.mp hmem with hsign | hdig
    · exact absurd hsign (by decide)
    · exact newline_not_mem_natDigits _ hdig
  · exact newline_not_mem_natDigits _

theorem hexChar_ne_newline (m : Nat) (h : m < 16) : hexChar m ≠ '\n' := by
  interval_cases m <;> decide

theorem newline_not_mem_escapeChar (c : Char) : '\n' ∉ escapeChar c := by
  unfold escapeChar
  split_ifs with hq hbs hnl htab hcr hbsp hff hctl
  · decide
  · decide
  · decide
  · decide
  · decide
  · decide
  · decide
  · intro hm
    simp only [List.mem_cons, List.mem_singleton] at hm
    rcases hm with e1 | e2 | e3 | e4 | e5 | etail
    · exact absurd e1 (by decide)
    · exact absurd e2 (by decide)
    · exact absurd e3 (by decide)
    · exact absurd e4 (by decide)
    · exact hexChar_ne_newline _ (by omega) e5.symm
    rcases etail with e6 | e7
    · exact hexChar_ne_newline _ (by omega) e6.symm
    · exact absurd e7 (by simp)
  · intro hm
    rw [List.mem_singleton] at hm
    rw [← hm] at hctl
    exact hctl (by decide)

theorem newline_not_mem_escapeList (s : List Char) : '\n' ∉ escapeList s := by
  induction s with
  | nil => simp [escapeList]
  | cons c t ih =>
    rw [escapeList]
    intro hmem
    rcases List.mem_append.mp hmem with hhd | htl
    · exact newline_not_mem_escapeChar c hhd
    · exact ih htl

theorem newline_not_mem_strChars (s : String) : '\n' ∉ strChars s := by
  unfold strChars
  intro hmem
  rcases List.mem_cons.mp hmem with hquote | hbody
  · exact absurd hquote (by decide)
  rcases List.mem_append.mp hbody with hesc | hclose
  · exact newline_not_mem_escapeList _ hesc
  · rw [List.mem_singleton] at hclose
    exact absurd hclose (by decide)

mutual

theorem newline_not_mem_dumpsChars : ∀ j : Json, '\n' ∉ dumpsChars j
  | .null => by decide
  | .bool true => by decide
  | .bool false => by decide
  | .int i => newline_not_mem_intChars i
  | .str s => newline_not_mem_strChars s
  | .arr es => by
    show '\n' ∉ '[' :: (dumpsElems es ++ [']'])
    intro hmem
    rcases List.mem_cons.mp hmem with hopen | hrest2
    · exact absurd hopen (by decide)
    rcases List.mem_append.mp hrest2 with hinner | hclose
    · exact newline_not_mem_dumpsElems es hinner
    · rw [List.mem_singleton] at hclose
      exact absurd hclose (by decide)
  | .obj kvs => by
    show '\n' ∉ '\x7b' :: (dumpsFields kvs ++ ['\x7d'])
    intro hmem
    rcases List.mem_cons.mp hmem with hopen | hrest2
    · exact absurd hopen (by decide)
    rcases List.mem_append.mp hrest2 with hinner | hclose
    · exact newline_not_mem_dumpsFields kvs hinner
    · rw [List.mem_singleton] at hclose
      exact absurd hclose (by decide)

theorem newline_not_mem_dumpsElems : ∀ es : List Json, '\n' ∉ dumpsElems es
  | [] => by simp [dumpsElems]
  | [e] => newline_not_mem_dumpsChars e
  | e :: e2 :: es => by
    show '\n' ∉ dumpsChars e ++ ',' :: ' ' :: dumpsElems (e2 :: es)
    intro hmem
    rcases List.mem_append.mp hmem with hval | hsep
    · exact newline_not_mem_dumpsChars e hval
    rcases List.mem_cons.mp hsep with hcomma | hsp
    · exact absurd hcomma (by decide)
    rcases List.mem_cons.mp hsp with hspace | htail
    · exact absurd hspace (by decide)
    · exact newline_not_mem_dumpsElems (e2 :: es) htail

theorem newline_not_mem_dumpsFields : ∀ kvs : List (String × Json), '\n' ∉ dumpsFields kvs
  | [] => by simp [dumpsFields]
  | [(k, v)] => by
    show '\n' ∉ strChars k ++ ':' :: ' ' :: dumpsChars v
    intro hmem
    rcases List.mem_append.mp hmem with hkey | hval
    · exact newline_not_mem_strChars k hkey
    rcases List.mem_cons.mp hval with hcolon | hsp
    · exact absurd hcolon (by decide)
    rcases List.mem_cons.mp hsp with hspace | hv2
    · exact absurd hspace (by decide)
    · exact newline_not_mem_dumpsChars v hv2
  | (k, v) :: kv2 :: kvs => by
    show '\n' ∉ strChars k ++ ':' :: ' ' :: dumpsChars v ++ ',' :: ' ' :: dumpsFields (kv2 :: kvs)
    intro hmem
    rcases List.mem_append.mp hmem with hfirst | hsep
    · rcases List.mem_append.mp hfirst with hkey | hval
      · exact newline_not_mem_strChars k hkey
      rcases List.mem_cons.mp hval with hcolon | hsp
      · exact absurd hcolon (by decide)
      rcases List.mem_cons.mp hsp with hspace | hv2
      · exact absurd hspace (by decide)
      · exact newline_not_mem_dumpsChars v hv2
    rcases List.mem_cons.mp hsep with hcomma | hsp2
    · exact absurd hcomma (by decide)
    rcases List.mem_cons.mp hsp2 with hspace2 | htail
    · exact absurd hspace2 (by decide)
    · exact newline_not_mem_dumpsFields (kv2 :: kvs) htail

end

/-- The line written for one request contains exactly one newline: the
terminator. -/
theorem count_newline_dumps (j : Json) : (dumps j ++ "\n").data.count '\n' = 1 := by
  have hdata : (dumps j ++ "\n").data = dumpsChars j ++ ['\n'] := by
    show (dumps j).data ++ "\n".data = _
    rfl
  rw [hdata, List.count_append,
    List.count_eq_zero.mpr (newline_not_mem_dumpsChars j)]
  rfl

/-!
## The claims
-/

/-- C1 counterexample: the spec's error-reply scenario.  The test double
replies with a response carrying an error object, yet `call` returns the
whole decoded response as a successful value instead of failing with a
`RemoteError` — the code never inspects the `error` field. -/
theorem C1_claim_false :
    (Tourist.rpc "echo" []
        ["\x7b\"jsonrpc\":\"2.0\",\"id\":1,\"error\":\x7b\"code\":-32601,\"message\":\"method not found\"\x7d\x7d"]).2
      = Except.ok (Json.obj [("jsonrpc", Json.str "2.0"), ("id", Json.int 1),
          ("error", Json.obj [("code", Json.int (-32601)), ("message", Json.str "method not found")])])
    ∧ (Json.obj [("jsonrpc", Json.str "2.0"), ("id", Json.int 1),
          ("error", Json.obj [("code", Json.int (-32601)), ("message", Json.str "method not found")])]).getField "error"
      = some (Json.obj [("code", Json.int (-32601)), ("message", Json.str "method not found")]) :=
  ⟨rfl, rfl⟩

/-- C1 as amended: whenever the first line of the child's output decodes to
a value carrying an `error` field, `__rpc` still returns that whole decoded
value as its successful result; no `RemoteError` is raised (the code defines
no such exception and never examines the decoded response). -/
theorem C1_error_response_returned (method : String) (args : List Json)
    (line : String) (rest : List String) (j e : Json)
    (hline : loads line = Except.ok j) (herr : j.getField "error" = some e) :
    (Tourist.rpc method args (line :: rest)).2 = Except.ok j := by
  show loads (Tourist.readline (line :: rest)) = _
  rw [show Tourist.readline (line :: rest) = line from rfl, hline]

/-- C1 witness: the amended theorem applied to the spec's error scenario. -/
theorem C1_error_response_returned_witness :
    (Tourist.rpc "echo" []
        ["\x7b\"jsonrpc\":\"2.0\",\"id\":1,\"error\":\x7b\"code\":-32601,\"message\":\"method not found\"\x7d\x7d"]).2
      = Except.ok (Json.obj [("jsonrpc", Json.str "2.0"), ("id", Json.int 1),
          ("error", Json.obj [("code", Json.int (-32601)), ("message", Json.str "method not found")])]) :=
  C1_error_response_returned "echo" [] _ [] _
    (Json.obj [("code", Json.int (-32601)), ("message", Json.str "method not found")]) rfl rfl

/-- C2 counterexample: the spec's echo scenario.  Against a double replying
with result `"hello"`, `call` returns the whole response object, which is
not the JSON string `"hello"`. -/
theorem C2_claim_false :
    (Tourist.rpc "echo" [Json.str "hello"]
        ["\x7b\"jsonrpc\":\"2.0\",\"id\":1,\"result\":\"hello\"\x7d"]).2
      = Except.ok (Json.obj [("jsonrpc", Json.str "2.0"), ("id", Json.int 1),
          ("result", Json.str "hello")])
    ∧ Json.obj [("jsonrpc", Json.str "2.0"), ("id", Json.int 1), ("result", Json.str "hello")]
      ≠ Json.str "hello" :=
  ⟨rfl, fun h => Json.noConfusion h⟩

/-- C2 as amended: a successful `call` returns the entire decoded response
object, of which the `result` field is one component the caller itself must
project out (as the module's main block does with a `["result"]` index). -/
theorem C2_whole_response_returned (method : String) (args : List Json)
    (r : Json) (rest : List String) :
    (Tourist.rpc method args (dumps (mkResponse r) :: rest)).2 = Except.ok (mkResponse r)
    ∧ (mkResponse r).getField "result" = some r := by
  refine ⟨?_, rfl⟩
  show loads (dumps (mkResponse r)) = _
  exact loads_dumps _

/-- C3 counterexample: two calls issued before any response both carry the
request id 1, so for N = 2 the ids are not pairwise distinct. -/
theorem C3_claim_false :
    (Tourist.msg "list_tours" []).getField "id" = some (Json.int 1)
    ∧ (Tourist.msg "create_tour" [Json.str "My tour"]).getField "id" = some (Json.int 1) :=
  ⟨rfl, rfl⟩

/-- C3 as amended: every request is sent with the hard-coded constant id 1
(the original strictly sequential design); any two requests share the same
id, so pairwise distinctness holds only for N ≤ 1. -/
theorem C3_constant_id (method : String) (args : List Json)
    (method2 : String) (args2 : List Json) :
    (Tourist.msg method args).getField "id" = some (Json.int 1)
    ∧ (Tourist.msg method args).getField "id" = (Tourist.msg method2 args2).getField "id" :=
  ⟨rfl, rfl⟩

/-- C4 counterexample: responses arriving out of order.  The stream holds
the response with id 2 first and the one with id 1 second; the caller —
whose request carried id 1 — receives the id-2 response, because the code
returns the first line it reads without any id matching. -/
theorem C4_claim_false :
    (Tourist.rpc "first" []
        ["\x7b\"jsonrpc\":\"2.0\",\"id\":2,\"result\":\"B\"\x7d",
         "\x7b\"jsonrpc\":\"2.0\",\"id\":1,\"result\":\"A\"\x7d"]).2
      = Except.ok (Json.obj [("jsonrpc", Json.str "2.0"), ("id", Json.int 2),
          ("result", Json.str "B")])
    ∧ (Tourist.msg "first" []).getField "id" = some (Json.int 1)
    ∧ (Json.obj [("jsonrpc", Json.str "2.0"), ("id", Json.int 2),
          ("result", Json.str "B")]).getField "id" ≠ some (Json.int 1) := by
  refine ⟨rfl, rfl, ?_⟩
  intro h
  rw [show (Json.obj [("jsonrpc", Json.str "2.0"), ("id", Json.int 2),
      ("result", Json.str "B")]).getField "id" = some (Json.int 2) from rfl] at h
  injection h with h1
  injection h1 with h2
  omega

/-- C4 as amended: after writing a request the client reads exactly one
line and returns its decoded value whatever id it carries — there is no
reading until a matching id.  Correlation therefore holds only when the
child writes exactly one response per request in request order. -/
theorem C4_single_line_no_correlation (method : String) (args : List Json)
    (line : String) (rest : List String) (j : Json)
    (hline : loads line = Except.ok j)
    (hid : j.getField "id" ≠ some (Json.int 1)) :
    (Tourist.rpc method args (line :: rest)).2 = Except.ok j
    ∧ (Tourist.rpc method args (line :: rest)).1
      = [IOOp.write (dumps (Tourist.msg method args) ++ "\n"), IOOp.flush, IOOp.readLine] := by
  refine ⟨?_, rfl⟩
  show loads (Tourist.readline (line :: rest)) = _
  rw [show Tourist.readline (line :: rest) = line from rfl, hline]

/-- C4 witness: the amended theorem applied to a response whose id is 2
while the request id is 1. -/
theorem C4_single_line_no_correlation_witness :
    (Tourist.rpc "first" [] ["\x7b\"jsonrpc\":\"2.0\",\"id\":2,\"result\":\"B\"\x7d"]).2
      = Except.ok (Json.obj [("jsonrpc", Json.str "2.0"), ("id", Json.int 2),
          ("result", Json.str "B")])
    ∧ (Tourist.rpc "first" [] ["\x7b\"jsonrpc\":\"2.0\",\"id\":2,\"result\":\"B\"\x7d"]).1
      = [IOOp.write (dumps (Tourist.msg "first" []) ++ "\n"), IOOp.flush, IOOp.readLine] :=
  C4_single_line_no_correlation "first" [] _ [] _ rfl
    (by
      intro h
      rw [show (Json.obj [("jsonrpc", Json.str "2.0"), ("id", Json.int 2),
          ("result", Json.str "B")]).getField "id" = some (Json.int 2) from rfl] at h
      injection h with h1
      injection h1 with h2
      omega)

/-- C5 counterexample: a valid JSON line lacking `id`, `result` and `error`
decodes successfully and is returned — nothing like `MalformedResponse` is
raised for missing or ill-combined fields. -/
theorem C5_claim_false :
    (Tourist.rpc "view_tour" [] ["\x7b\"foo\": 1\x7d"]).2
      = Except.ok (Json.obj [("foo", Json.int 1)])
    ∧ (Json.obj [("foo", Json.int 1)]).getField "id" = none
    ∧ (Json.obj [("foo", Json.int 1)]).getField "result" = none
    ∧ (Json.obj [("foo", Json.int 1)]).getField "error" = none :=
  ⟨rfl, rfl, rfl, rfl⟩

/-- C5 as amended: decoding is exactly `json.loads`.  Every line that is
valid JSON — whether or not it has an `id` or exactly one of
`result`/`error` — decodes successfully and is returned unvalidated, while
a line that is not valid JSON makes the call fail with the uncaught
`json.JSONDecodeError` (not a `MalformedResponse`). -/
theorem C5_decode_is_json_loads :
    (∀ (method : String) (args : List Json) (j : Json) (rest : List String),
      (Tourist.rpc method args (dumps j :: rest)).2 = Except.ok j)
    ∧ (Tourist.rpc "view_tour" [] ["not json"]).2
      = Except.error (PyError.jsonDecodeError "Expecting value") := by
  refine ⟨?_, rfl⟩
  intro method args j rest
  show loads (dumps j) = _
  exact loads_dumps j

/-- C6: round-trip.  For every method name and JSON argument list, decoding
the encoded request as the server echo sees it reproduces the request, and
in particular its original `method` and `id` fields. -/
theorem C6_roundtrip (method : String) (args : List Json) :
    loads (dumps (Tourist.msg method args)) = Except.ok (Tourist.msg method args)
    ∧ (Tourist.msg method args).getField "method" = some (Json.str method)
    ∧ (Tourist.msg method args).getField "id" = some (Json.int 1) :=
  ⟨loads_dumps _, rfl, rfl⟩

/-- C7: for every call the client performs exactly a write of the
serialized request followed by a flush and then a read; the written data is
the serialization of a single JSON object carrying the literal protocol
version `"2.0"`, the method, the params and the id, terminated by exactly
one newline. -/
theorem C7_wire_format (method : String) (args : List Json) (stdout : List String) :
    (Tourist.rpc method args stdout).1
      = [IOOp.write (dumps (Tourist.msg method args) ++ "\n"), IOOp.flush, IOOp.readLine]
    ∧ (dumps (Tourist.msg method args) ++ "\n").data.count '\n' = 1
    ∧ (Tourist.msg method args).getField "jsonrpc" = some (Json.str "2.0")
    ∧ (Tourist.msg method args).getField "method" = some (Json.str method)
    ∧ (Tourist.msg method args).getField "params" = some (Json.arr args)
    ∧ (Tourist.msg method args).getField "id" = some (Json.int 1) :=
  ⟨rfl, count_newline_dumps _, rfl, rfl, rfl, rfl⟩

/-- C8 counterexample: with the child's output closed and no response
written, `readline` returns empty bytes and the call fails with
`json.JSONDecodeError` from `json.loads` of the empty string — a JSON
parse error, not a `ProcessTerminated` error. -/
theorem C8_claim_false :
    Tourist.readline [] = ""
    ∧ (Tourist.rpc "view_tour" [Json.str "t1"] []).2
      = Except.error (PyError.jsonDecodeError "Expecting value") :=
  ⟨rfl, rfl⟩

/-- C8 as amended: when the child closes its output while a call is
outstanding, the call does not hang and does not return a value, but it
fails with the unrelated `json.JSONDecodeError` raised by `json.loads` on
empty input rather than with a `ProcessTerminated` error. -/
theorem C8_eof_json_error (method : String) (args : List Json) :
    (Tourist.rpc method args []).2
      = Except.error (PyError.jsonDecodeError "Expecting value") := rfl

/-- C9: the `refresh_tour` wrapper resolves the misspelled attribute
`__rpi` (mangled `_Tourist__rpi`), which the class does not define, so the
call raises `AttributeError` before writing any request — it does not
delegate to `__rpc` with method `"refresh_tour"` and params
`[tour_id, commit]` as every other wrapper delegates. -/
theorem C9_refresh_tour_attribute_error (tour_id commit : Json) (stdout : List String) :
    Tourist.refresh_tour tour_id commit stdout
      = ([], Except.error (PyError.attributeError "_Tourist__rpi")) := rfl

/-- C10: `locate_stop` accepts `naive` but invokes `__rpc` with params
exactly `[tour_id, stop_id]`; its whole behavior — request and result — is
independent of the value of `naive`. -/
theorem C10_locate_stop_params (tour_id stop_id naive naive2 : Json) (stdout : List String) :
    Tourist.locate_stop tour_id stop_id naive stdout
      = Tourist.rpc "locate_stop" [tour_id, stop_id] stdout
    ∧ Tourist.locate_stop tour_id stop_id naive stdout
      = Tourist.locate_stop tour_id stop_id naive2 stdout
    ∧ (Tourist.msg "locate_stop" [tour_id, stop_id]).getField "params"
      = some (Json.arr [tour_id, stop_id]) :=
  ⟨rfl, rfl, rfl⟩

end ReplClient
